import Mathlib

/-!
Shallow embedding of the `wasmgo` plugin (src/lib.rs, src/builder.rs).

The plugin is filesystem/subprocess glue, so the embedding abstracts the
environment: a `FileSystem` record models `Path::exists`, `Path::is_dir`
and `fs::read_dir` (direct entries, in directory order, as file names),
and a `BuildEnv` record additionally models the tool probe
(`CommandExecutor::is_tool_installed`), output-directory creation, the one
external command invocation (`CommandExecutor::execute_command`), and the
post-build existence check of the output file.  Paths are POSIX-style
strings; `joinPaths` models `PathResolver::join_paths` / `Path::join` for
the relative segments the code joins.  Rust `Path::extension` /
`Path::file_stem` are modelled on the final `/`-separated component with
the documented last-dot rules.
-/

set_option autoImplicit false

namespace WasmGo

/-- Model of `PathResolver::join_paths` (and `Path::join` on a relative segment). -/
def joinPaths (base : String) (rel : String) : String :=
  base ++ "/" ++ rel

/-- Splits a character list at the last occurrence of `sep`: returns the
characters before it and those after it, or `none` when `sep` never occurs. -/
def splitAtLast (sep : Char) : List Char → Option (List Char × List Char)
  | [] => none
  | c :: rest =>
    match splitAtLast sep rest with
    | some (pre, suf) => some (c :: pre, suf)
    | none => if c = sep then some ([], rest) else none

/-- Splits a character list at its last dot. -/
def splitLastDot (cs : List Char) : Option (List Char × List Char) :=
  splitAtLast '.' cs

/-- Final `/`-separated component of a path, modelling `Path::file_name`. -/
def pathFileName (p : String) : String :=
  match splitAtLast '/' p.data with
  | none => p
  | some (_, suf) => String.mk suf

/-- ASCII lowercase of a character, the fragment of Rust
`str::to_lowercase` the detector relies on. -/
def asciiLowerChar (c : Char) : Char :=
  if 'A' ≤ c ∧ c ≤ 'Z' then Char.ofNat (c.toNat + 32) else c

/-- ASCII lowercase of a string, modelling `str::to_lowercase`. -/
def asciiToLower (s : String) : String :=
  String.mk (s.data.map asciiLowerChar)

/-- Model of `Path::extension` on a plain file name: the portion after the
final dot, `none` when there is no dot or the only dot is the leading one. -/
def extensionOfName (name : String) : Option String :=
  match splitLastDot name.data with
  | none => none
  | some (pre, suf) => if pre = [] then none else some (String.mk suf)

/-- Model of `Path::extension` on a full path. -/
def pathExtension (p : String) : Option String :=
  extensionOfName (pathFileName p)

/-- Model of `Path::file_stem` on a plain file name: the portion before the
final dot, or the whole name when there is no dot or only a leading one. -/
def fileStemOfName (name : String) : String :=
  match splitLastDot name.data with
  | none => name
  | some (pre, _) => if pre = [] then name else String.mk pre

/-- Model of `Path::file_stem` on a full path. -/
def pathFileStem (p : String) : String :=
  fileStemOfName (pathFileName p)

/-- Abstract filesystem state: `pathExists` models `Path::exists`, `isDir`
models `Path::is_dir`, and `readDir` models `fs::read_dir` returning the
file names of the direct entries in directory order (`none` when the read
fails, matching the `if let Ok(..)` pattern in the source). -/
structure FileSystem where
  pathExists : String → Bool
  isDir : String → Bool
  readDir : String → Option (List String)

/-- Mirrors `enum PluginType` in src/lib.rs. -/
inductive PluginType where
  | Builtin
  | External
  | Registry
  deriving Repr, DecidableEq

/-- Mirrors `enum PluginSource` in src/lib.rs. -/
inductive PluginSource where
  | CratesIo (name : String) (version : String)
  | Git (url : String) (branch : Option String)
  | Local (path : String)
  deriving Repr, DecidableEq

/-- Mirrors `struct PluginCapabilities` in src/lib.rs. -/
structure PluginCapabilities where
  compile_wasm : Bool
  compile_webapp : Bool
  live_reload : Bool
  optimization : Bool
  custom_targets : List String
  deriving Repr, DecidableEq

/-- Mirrors `struct PluginInfo` in src/lib.rs. -/
structure PluginInfo where
  name : String
  version : String
  description : String
  author : String
  extensions : List String
  entry_files : List String
  plugin_type : PluginType
  source : Option PluginSource
  dependencies : List String
  capabilities : PluginCapabilities
  deriving Repr, DecidableEq

/-- Mirrors `enum PluginError` in src/lib.rs; the `Io` variant is modelled
as carrying the error message. -/
inductive PluginError where
  | CompilationFailed (reason : String)
  | BuildToolNotFound (tool : String)
  | InvalidProjectStructure (reason : String)
  | MissingEntryFile (candidates : List String)
  | OutputDirectoryCreationFailed (path : String)
  | ioError (msg : String)
  deriving Repr, DecidableEq

/-- Mirrors `enum OptimizationLevel` in src/lib.rs. -/
inductive OptimizationLevel where
  | Debug
  | Release
  | Size
  deriving Repr, DecidableEq

/-- Mirrors `enum TargetType` in src/lib.rs. -/
inductive TargetType where
  | Standard
  | Web
  deriving Repr, DecidableEq

/-- Mirrors `struct BuildConfig` in src/lib.rs. -/
structure BuildConfig where
  project_path : String
  output_directory : String
  verbose : Bool
  optimization_level : OptimizationLevel
  target_type : TargetType

/-- Mirrors `struct BuildResult` in src/lib.rs. -/
structure BuildResult where
  wasm_file_path : String
  js_file_path : Option String
  additional_files : List String
  is_wasm_bindgen : Bool
  deriving Repr, DecidableEq

/-- Mirrors `struct Output` of a finished child process as the code uses
it: its exit status success flag and its stderr bytes (as a string). -/
structure CmdOutput where
  success : Bool
  stderr : String
  deriving Repr, DecidableEq

/-- Version flag chosen by `CommandExecutor::is_tool_installed`. -/
def versionArg (tool_name : String) : String :=
  if tool_name = "tinygo" then "version" else "--version"

/-- Environment for `build` and the dependency checker: the tool probe
outcome (exit-status success of running the tool with the given argument),
the filesystem, whether `fs::create_dir_all` succeeds on a directory, the
outcome of `CommandExecutor::execute_command` (`Except` msg models an
`Err` from spawning), and whether the output file exists after the
compiler ran. -/
structure BuildEnv where
  probeSuccess : String → String → Bool
  fs : FileSystem
  mkdirSucceeds : String → Bool
  exec : String → List String → String → Except String CmdOutput
  existsAfterBuild : String → Bool

/-- Mirrors `CommandExecutor::is_tool_installed` (src/lib.rs lines 134-146):
probe the tool with its version flag and report exit-status success. -/
def isToolInstalled (env : BuildEnv) (tool_name : String) : Bool :=
  env.probeSuccess tool_name (versionArg tool_name)

/-- Mirrors `GoPlugin::can_handle_project` (src/builder.rs lines 163-186):
true when `go.mod` exists in the directory, or some direct entry has an
extension whose lowercase form is one of the plugin's extensions. -/
def canHandleProject (info : PluginInfo) (fs : FileSystem) (project_directory : String) : Bool :=
  if fs.pathExists (joinPaths project_directory "go.mod") then true
  else
    match fs.readDir project_directory with
    | some entries =>
      entries.any fun entryName =>
        match extensionOfName entryName with
        | some ext => info.extensions.contains (asciiToLower ext)
        | none => false
    | none => false

/-- Mirrors `GoPlugin::find_entry_file` (src/builder.rs lines 127-155):
first entry-file candidate that exists under the project directory, else
first direct entry whose extension equals `"go"` exactly, else the
`MissingEntryFile` error carrying the candidate list. -/
def findEntryFile (info : PluginInfo) (fs : FileSystem) (project_directory : String) :
    Except PluginError String :=
  match info.entry_files.find? (fun name => fs.pathExists (joinPaths project_directory name)) with
  | some name => .ok (joinPaths project_directory name)
  | none =>
    match fs.readDir project_directory with
    | some entries =>
      match entries.find? (fun name => extensionOfName name == some "go") with
      | some name => .ok (joinPaths project_directory name)
      | none => .error (.MissingEntryFile info.entry_files)
    | none => .error (.MissingEntryFile info.entry_files)

/-- Mirrors `PathResolver::validate_directory_exists` (src/lib.rs lines 217-230). -/
def validateDirectoryExists (fs : FileSystem) (directory_path : String) :
    Except PluginError Unit :=
  if fs.pathExists directory_path = false then
    .error (.InvalidProjectStructure ("Directory does not exist: " ++ directory_path))
  else if fs.isDir directory_path = false then
    .error (.InvalidProjectStructure ("Path is not a directory: " ++ directory_path))
  else
    .ok ()

/-- Mirrors `GoPlugin::validate_project` (src/builder.rs lines 223-227). -/
def validateProject (info : PluginInfo) (fs : FileSystem) (project_directory : String) :
    Except PluginError Unit :=
  match validateDirectoryExists fs project_directory with
  | .error e => .error e
  | .ok _ =>
    match findEntryFile info fs project_directory with
    | .error e => .error e
    | .ok _ => .ok ()

/-- Install hint chosen inside the loop of `GoPlugin::check_dependencies`
(src/builder.rs lines 211-215). -/
def installHint (tool : String) : String :=
  if tool = "tinygo" then tool ++ " (install from https://tinygo.org)"
  else if tool = "go" then tool ++ " (Go compiler)"
  else tool

/-- Mirrors `GoPlugin::check_dependencies` (src/builder.rs lines 206-221):
a fold over the declared tools pushing an install hint for each tool whose
probe fails. -/
def checkDependencies (info : PluginInfo) (env : BuildEnv) : List String :=
  info.dependencies.foldl
    (fun missing tool =>
      if isToolInstalled env tool then missing else missing ++ [installHint tool])
    []

/-- Effects `build` performs on the environment, in order: the entry-file
resolution (candidate probing and directory scan), the output-directory
creation, and the external compiler invocation. -/
inductive BuildEffect where
  | entryScan (dir : String)
  | ensureDir (dir : String)
  | runCommand (cmd : String) (args : List String) (cwd : String)
  deriving Repr, DecidableEq

/-- Mirrors `GoPlugin::build` (src/builder.rs lines 229-285), returning the
result together with the ordered trace of environment effects it performed.
The `file_stem().unwrap()` in the source is total here because the model's
`pathFileStem` is total on the joined paths `find_entry_file` returns. -/
def build (info : PluginInfo) (env : BuildEnv) (cfg : BuildConfig) :
    Except PluginError BuildResult × List BuildEffect :=
  if isToolInstalled env "tinygo" = false then
    (.error (.BuildToolNotFound "tinygo"), [])
  else
    match findEntryFile info env.fs cfg.project_path with
    | .error e => (.error e, [.entryScan cfg.project_path])
    | .ok entryFilePath =>
      if env.mkdirSucceeds cfg.output_directory = false then
        (.error (.OutputDirectoryCreationFailed cfg.output_directory),
          [.entryScan cfg.project_path, .ensureDir cfg.output_directory])
      else
        let outputFilename := pathFileStem entryFilePath ++ ".wasm"
        let outputPath := joinPaths cfg.output_directory outputFilename
        let args := ["build", "-o", outputPath, "-target=wasm", "."]
        let effects := [BuildEffect.entryScan cfg.project_path,
          BuildEffect.ensureDir cfg.output_directory,
          BuildEffect.runCommand "tinygo" args cfg.project_path]
        match env.exec "tinygo" args cfg.project_path with
        | .error ioMsg => (.error (.ioError ioMsg), effects)
        | .ok commandOutput =>
          if commandOutput.success = false then
            (.error (.CompilationFailed ("Build failed: " ++ commandOutput.stderr)), effects)
          else if env.existsAfterBuild outputPath = false then
            (.error (.CompilationFailed
              "TinyGo build completed but WASM file was not created"), effects)
          else
            (.ok { wasm_file_path := outputPath
                   js_file_path := none
                   additional_files := []
                   is_wasm_bindgen := false }, effects)

/-- Mirrors the manifest structs deserialized in src/builder.rs lines 39-60. -/
structure WasmPluginCapabilities where
  compile_wasm : Bool
  compile_webapp : Bool
  live_reload : Bool
  optimization : Bool
  custom_targets : List String
  deriving Repr, DecidableEq

/-- Mirrors `struct WasmPluginDependencies` in src/builder.rs. -/
structure WasmPluginDependencies where
  tools : List String
  deriving Repr, DecidableEq

/-- Mirrors `struct WasmPluginConfig` in src/builder.rs. -/
structure WasmPluginConfig where
  name : String
  extensions : List String
  entry_files : List String
  capabilities : WasmPluginCapabilities
  dependencies : WasmPluginDependencies
  deriving Repr, DecidableEq

/-- Mirrors `struct PackageMetadata` in src/builder.rs. -/
structure PackageMetadata where
  wasm_plugin : WasmPluginConfig
  deriving Repr, DecidableEq

/-- Mirrors `struct CargoPackage` in src/builder.rs (the fields the code
reads; the dead-code optional fields are omitted). -/
structure CargoPackage where
  name : String
  version : String
  authors : List String
  description : String
  metadata : Option PackageMetadata
  deriving Repr, DecidableEq

/-- Mirrors `struct CargoToml` in src/builder.rs. -/
structure CargoToml where
  package : CargoPackage
  deriving Repr, DecidableEq

/-- Mirrors `GoPlugin::create_plugin_info` (src/builder.rs lines 88-125).
The `.expect` on a missing `[package.metadata.wasm-plugin]` section aborts
the Rust process; the abort is modelled as `none`. -/
def createPluginInfo (cargo_config : CargoToml) : Option PluginInfo :=
  match cargo_config.package.metadata with
  | none => none
  | some meta =>
    let wasm_plugin := meta.wasm_plugin
    let author := (cargo_config.package.authors.head?).getD "Unknown"
    let source := some (PluginSource.CratesIo cargo_config.package.name
      cargo_config.package.version)
    some
      { name := wasm_plugin.name
        version := cargo_config.package.version
        description := cargo_config.package.description
        author := author
        extensions := wasm_plugin.extensions
        entry_files := wasm_plugin.entry_files
        plugin_type := .External
        source := source
        dependencies := wasm_plugin.dependencies.tools
        capabilities :=
          { compile_wasm := wasm_plugin.capabilities.compile_wasm
            compile_webapp := wasm_plugin.capabilities.compile_webapp
            live_reload := wasm_plugin.capabilities.live_reload
            optimization := wasm_plugin.capabilities.optimization
            custom_targets := wasm_plugin.capabilities.custom_targets } }

/-! Helper lemmas about `List.find?` and the fold in `checkDependencies`. -/

/-- The first element of a list satisfying a predicate, phrased through an
explicit decomposition, is what `List.find?` returns. -/
theorem find_eq_of_decomp {α : Type} (p : α → Bool) (pre : List α) (c : α) (post : List α)
    (hpre : ∀ x ∈ pre, p x = false) (hc : p c = true) :
    (pre ++ c :: post).find? p = some c := by
  induction pre with
  | nil => simp [List.find?, hc]
  | cons a tl ih =>
    have ha : p a = false := hpre a (by simp)
    simp only [List.cons_append, List.find?, ha]
    exact ih (fun x hx => hpre x (by simp [hx]))

/-- When no element satisfies the predicate, `List.find?` returns `none`. -/
theorem find_eq_none_of_all {α : Type} (p : α → Bool) (l : List α)
    (h : ∀ x ∈ l, p x = false) : l.find? p = none := by
  rw [List.find?_eq_none]
  intro x hx
  simp [h x hx]

/-- Unfolds the accumulating fold of `checkDependencies` to a filter-map. -/
theorem check_deps_foldl (env : BuildEnv) (l : List String) (acc : List String) :
    l.foldl
        (fun missing tool =>
          if isToolInstalled env tool then missing else missing ++ [installHint tool])
        acc =
      acc ++ (l.filter fun tool => !isToolInstalled env tool).map installHint := by
  induction l generalizing acc with
  | nil => simp
  | cons t tl ih =>
    by_cases ht : isToolInstalled env t
    · simp [List.foldl, ht, ih]
    · simp [List.foldl, ht, ih]

/-! Shared concrete fixtures used by the witness theorems. -/

/-- Plugin metadata as the manifest of this repository declares it:
Go sources, the four entry-file candidates, and the two build tools. -/
def sampleInfo : PluginInfo :=
  { name := "wasmgo"
    version := "0.1.0"
    description := "Go plugin"
    author := "anistark"
    extensions := ["go"]
    entry_files := ["main.go", "cmd/main.go", "app.go", "go.mod"]
    plugin_type := .External
    source := none
    dependencies := ["go", "tinygo"]
    capabilities :=
      { compile_wasm := true
        compile_webapp := false
        live_reload := false
        optimization := false
        custom_targets := [] } }

/-- A directory `proj` containing only the file `MAIN.GO`. -/
def fsUpperOnly : FileSystem :=
  { pathExists := fun p => p = "proj" || p = "proj/MAIN.GO"
    isDir := fun p => p = "proj"
    readDir := fun d => if d = "proj" then some ["MAIN.GO"] else none }

/-- A directory `proj` containing only `go.mod` and a text file. -/
def fsGoModOnly : FileSystem :=
  { pathExists := fun p => p = "proj" || p = "proj/go.mod" || p = "proj/readme.txt"
    isDir := fun p => p = "proj"
    readDir := fun d => if d = "proj" then some ["go.mod", "readme.txt"] else none }

/-- An empty directory `proj`. -/
def fsEmptyDir : FileSystem :=
  { pathExists := fun p => p = "proj"
    isDir := fun p => p = "proj"
    readDir := fun d => if d = "proj" then some [] else none }

/-- A directory `proj` containing only `main.go`. -/
def fsMainGo : FileSystem :=
  { pathExists := fun p => p = "proj" || p = "proj/main.go"
    isDir := fun p => p = "proj"
    readDir := fun d => if d = "proj" then some ["main.go"] else none }

/-! The claim theorems. -/

/-- The boolean test inside the detector's scan loop succeeds exactly when
the entry has an extension whose lowercase form is a supported extension. -/
theorem entry_match_iff (info : PluginInfo) (name : String) :
    ((match extensionOfName name with
      | some ext => info.extensions.contains (asciiToLower ext)
      | none => false) = true) ↔
      ∃ ext, extensionOfName name = some ext ∧ asciiToLower ext ∈ info.extensions := by
  cases hext : extensionOfName name with
  | none => simp
  | some ext => simp [List.elem_iff]

/-- C1: `can_handle_project` returns true iff `go.mod` exists directly in
the directory, or some direct entry's extension, lowercased as the code
does, lies in the plugin's supported-extension set; in particular true
whenever `go.mod` is present and false when neither condition holds. -/
theorem can_handle_project_iff (info : PluginInfo) (fs : FileSystem) (dir : String) :
    canHandleProject info fs dir = true ↔
      (fs.pathExists (joinPaths dir "go.mod") = true ∨
        ∃ name ∈ (fs.readDir dir).getD [], ∃ ext,
          extensionOfName name = some ext ∧ asciiToLower ext ∈ info.extensions) := by
  unfold canHandleProject
  by_cases hmod : fs.pathExists (joinPaths dir "go.mod")
  · simp [hmod]
  · simp only [hmod, Bool.false_eq_true, if_false]
    cases hrd : fs.readDir dir with
    | none => simp [hrd]
    | some entries =>
      simp only [Option.getD_some, List.any_eq_true, entry_match_iff]
      simp

/-- Witness for C1: a directory holding only `go.mod` is handled. -/
theorem can_handle_project_iff_inst :
    canHandleProject sampleInfo fsGoModOnly "proj" = true :=
  (can_handle_project_iff sampleInfo fsGoModOnly "proj").mpr (Or.inl (by decide))

/-- C3: whenever `find_entry_file` fails, the error is `MissingEntryFile`
carrying exactly the original candidate list, in order. -/
theorem missing_entry_error_exact (info : PluginInfo) (fs : FileSystem) (dir : String)
    (e : PluginError) (h : findEntryFile info fs dir = .error e) :
    e = .MissingEntryFile info.entry_files := by
  unfold findEntryFile at h
  split at h
  · exact absurd h (by simp)
  · split at h
    · split at h
      · exact absurd h (by simp)
      · exact ((Except.error.injEq _ _).mp h).symm
    · exact ((Except.error.injEq _ _).mp h).symm

/-- Witness for C3: the error from an empty project directory carries the
original candidate list. -/
theorem missing_entry_error_exact_inst :
    (PluginError.MissingEntryFile ["main.go", "cmd/main.go", "app.go", "go.mod"]) =
      PluginError.MissingEntryFile sampleInfo.entry_files :=
  missing_entry_error_exact sampleInfo fsEmptyDir "proj"
    (.MissingEntryFile ["main.go", "cmd/main.go", "app.go", "go.mod"]) (by rfl)

/-- C10: the detector lowercases extensions while the resolver's fallback
scan matches `"go"` exactly, so a directory holding only `MAIN.GO` is
claimed handleable by `can_handle_project` yet `find_entry_file` (and
hence `validate_project`) returns the missing-entry-file error. -/
theorem case_sensitivity_divergence :
    canHandleProject sampleInfo fsUpperOnly "proj" = true ∧
    findEntryFile sampleInfo fsUpperOnly "proj" =
      .error (.MissingEntryFile sampleInfo.entry_files) ∧
    validateProject sampleInfo fsUpperOnly "proj" =
      .error (.MissingEntryFile sampleInfo.entry_files) := by
  refine ⟨by decide, by rfl, by rfl⟩

/-- A directory `proj` with no entry candidate but a text file followed by
a `.go` file, exercising the fallback scan's first-match behaviour. -/
def fsScanOnly : FileSystem :=
  { pathExists := fun p => p = "proj" || p = "proj/notes.txt" || p = "proj/util.go"
    isDir := fun p => p = "proj"
    readDir := fun d => if d = "proj" then some ["notes.txt", "util.go"] else none }

/-- C2: `find_entry_file` returns the first candidate (in list order) that
exists under the project directory; failing that, the first file of the
single-level scan whose extension is the source extension; and only when
both fail, the missing-entry-file error. -/
theorem find_entry_file_resolution (info : PluginInfo) (fs : FileSystem) (dir : String) :
    (∀ pre c post, info.entry_files = pre ++ c :: post →
      (∀ x ∈ pre, fs.pathExists (joinPaths dir x) = false) →
      fs.pathExists (joinPaths dir c) = true →
      findEntryFile info fs dir = .ok (joinPaths dir c)) ∧
    (∀ entries pre n post,
      (∀ c ∈ info.entry_files, fs.pathExists (joinPaths dir c) = false) →
      fs.readDir dir = some entries →
      entries = pre ++ n :: post →
      (∀ x ∈ pre, ¬ extensionOfName x = some "go") →
      extensionOfName n = some "go" →
      findEntryFile info fs dir = .ok (joinPaths dir n)) ∧
    ((∀ c ∈ info.entry_files, fs.pathExists (joinPaths dir c) = false) →
      (∀ x ∈ (fs.readDir dir).getD [], ¬ extensionOfName x = some "go") →
      findEntryFile info fs dir = .error (.MissingEntryFile info.entry_files)) := by
  refine ⟨?_, ?_, ?_⟩
  · intro pre c post hdecomp hpre hc
    unfold findEntryFile
    rw [hdecomp, find_eq_of_decomp _ pre c post hpre hc]
  · intro entries pre n post hnone hrd hdecomp hpre hn
    unfold findEntryFile
    rw [find_eq_none_of_all _ _ hnone, hrd, hdecomp]
    have hfind : (pre ++ n :: post).find?
        (fun name => extensionOfName name == some "go") = some n :=
      find_eq_of_decomp _ pre n post (fun x hx => by simpa using hpre x hx) (by simp [hn])
    simp [hfind]
  · intro hnone hscan
    unfold findEntryFile
    rw [find_eq_none_of_all _ _ hnone]
    cases hrd : fs.readDir dir with
    | none => rfl
    | some entries =>
      have hfind : entries.find?
          (fun name => extensionOfName name == some "go") = none :=
        find_eq_none_of_all _ entries
          (fun x hx => by simpa using hscan x (by rw [hrd]; simpa using hx))
      simp [hfind]

/-- Witness for C2: the three resolution stages at concrete directories:
first existing candidate, fallback scan hit, and the error. -/
theorem find_entry_file_resolution_inst :
    findEntryFile sampleInfo fsGoModOnly "proj" = .ok "proj/go.mod" ∧
    findEntryFile sampleInfo fsScanOnly "proj" = .ok "proj/util.go" ∧
    findEntryFile sampleInfo fsEmptyDir "proj" =
      .error (.MissingEntryFile sampleInfo.entry_files) :=
  ⟨(find_entry_file_resolution sampleInfo fsGoModOnly "proj").1
      ["main.go", "cmd/main.go", "app.go"] "go.mod" [] rfl (by decide) (by decide),
    (find_entry_file_resolution sampleInfo fsScanOnly "proj").2.1
      ["notes.txt", "util.go"] ["notes.txt"] "util.go" [] (by decide) (by rfl) rfl
      (by decide) (by decide),
    (find_entry_file_resolution sampleInfo fsEmptyDir "proj").2.2 (by decide) (by decide)⟩

/-- A build configuration pointing at `proj` with output directory `out`. -/
def sampleCfg : BuildConfig :=
  { project_path := "proj"
    output_directory := "out"
    verbose := false
    optimization_level := .Release
    target_type := .Standard }

/-- An environment in which no tool probe succeeds. -/
def envNoTinygo : BuildEnv :=
  { probeSuccess := fun _ _ => false
    fs := fsMainGo
    mkdirSucceeds := fun _ => true
    exec := fun _ _ _ => .ok { success := true, stderr := "" }
    existsAfterBuild := fun _ => true }

/-- An environment in which probing, directory creation, the compiler run
and the output file check all succeed. -/
def envAllGood : BuildEnv :=
  { probeSuccess := fun _ _ => true
    fs := fsMainGo
    mkdirSucceeds := fun _ => true
    exec := fun _ _ _ => .ok { success := true, stderr := "" }
    existsAfterBuild := fun _ => true }

/-- C4: when the `tinygo` probe fails, `build` returns the
`BuildToolNotFound "tinygo"` error with an empty effect trace: no
entry-file resolution scan and no output-directory creation happened. -/
theorem build_tool_missing (info : PluginInfo) (env : BuildEnv) (cfg : BuildConfig)
    (h : isToolInstalled env "tinygo" = false) :
    build info env cfg = (.error (.BuildToolNotFound "tinygo"), []) := by
  unfold build
  simp [h]

/-- Witness for C4: the concrete tool-less environment. -/
theorem build_tool_missing_inst :
    build sampleInfo envNoTinygo sampleCfg = (.error (.BuildToolNotFound "tinygo"), []) :=
  build_tool_missing sampleInfo envNoTinygo sampleCfg rfl

/-- C5: on a successful compiler run whose output file exists, `build`
returns the artifact path `<output_directory>/<entry_stem>.wasm`, and the
compiler was invoked as `tinygo build -o <that path> -target=wasm .` with
the project directory as working directory. -/
theorem build_success_artifact (info : PluginInfo) (env : BuildEnv) (cfg : BuildConfig)
    (entry : String) (out : CmdOutput)
    (hTool : isToolInstalled env "tinygo" = true)
    (hEntry : findEntryFile info env.fs cfg.project_path = .ok entry)
    (hMkdir : env.mkdirSucceeds cfg.output_directory = true)
    (hExec : env.exec "tinygo"
      ["build", "-o", joinPaths cfg.output_directory (pathFileStem entry ++ ".wasm"),
        "-target=wasm", "."] cfg.project_path = .ok out)
    (hOk : out.success = true)
    (hFile : env.existsAfterBuild
      (joinPaths cfg.output_directory (pathFileStem entry ++ ".wasm")) = true) :
    build info env cfg =
      (.ok { wasm_file_path := joinPaths cfg.output_directory (pathFileStem entry ++ ".wasm")
             js_file_path := none
             additional_files := []
             is_wasm_bindgen := false },
        [.entryScan cfg.project_path, .ensureDir cfg.output_directory,
          .runCommand "tinygo"
            ["build", "-o", joinPaths cfg.output_directory (pathFileStem entry ++ ".wasm"),
              "-target=wasm", "."] cfg.project_path]) := by
  unfold build
  simp [hTool, hEntry, hMkdir, hExec, hOk, hFile]

/-- Witness for C5: the all-good environment builds `proj/main.go` into
`out/main.wasm`. -/
theorem build_success_artifact_inst :
    build sampleInfo envAllGood sampleCfg =
      (.ok { wasm_file_path := "out/main.wasm"
             js_file_path := none
             additional_files := []
             is_wasm_bindgen := false },
        [.entryScan "proj", .ensureDir "out",
          .runCommand "tinygo" ["build", "-o", "out/main.wasm", "-target=wasm", "."] "proj"]) := by
  have h := build_success_artifact sampleInfo envAllGood sampleCfg "proj/main.go"
    { success := true, stderr := "" } rfl (by rfl) rfl (by rfl) rfl rfl
  simpa using h

/-- C6: a non-zero compiler exit yields the `Build failed:` compilation
error (classified before any output-file check), a zero exit with a
missing output file yields the distinct fixed-message compilation error,
and no stderr can make the two errors coincide. -/
theorem build_failure_modes (info : PluginInfo) (env : BuildEnv) (cfg : BuildConfig)
    (entry : String) (out : CmdOutput)
    (hTool : isToolInstalled env "tinygo" = true)
    (hEntry : findEntryFile info env.fs cfg.project_path = .ok entry)
    (hMkdir : env.mkdirSucceeds cfg.output_directory = true)
    (hExec : env.exec "tinygo"
      ["build", "-o", joinPaths cfg.output_directory (pathFileStem entry ++ ".wasm"),
        "-target=wasm", "."] cfg.project_path = .ok out) :
    (out.success = false →
      (build info env cfg).1 =
        .error (.CompilationFailed ("Build failed: " ++ out.stderr))) ∧
    (out.success = true →
      env.existsAfterBuild
          (joinPaths cfg.output_directory (pathFileStem entry ++ ".wasm")) = false →
      (build info env cfg).1 =
        .error (.CompilationFailed "TinyGo build completed but WASM file was not created")) ∧
    (∀ s, PluginError.CompilationFailed ("Build failed: " ++ s) ≠
      PluginError.CompilationFailed "TinyGo build completed but WASM file was not created") := by
  refine ⟨?_, ?_, ?_⟩
  · intro hFail
    unfold build
    simp [hTool, hEntry, hMkdir, hExec, hFail]
  · intro hOk hNoFile
    unfold build
    simp [hTool, hEntry, hMkdir, hExec, hOk, hNoFile]
  · intro s h
    simp only [ne_eq, PluginError.CompilationFailed.injEq] at h
    have h2 := congrArg String.data h
    simp [String.data] at h2

/-- A compiler invocation that exits with a non-zero status. -/
def envExecFails : BuildEnv :=
  { probeSuccess := fun _ _ => true
    fs := fsMainGo
    mkdirSucceeds := fun _ => true
    exec := fun _ _ _ => .ok { success := false, stderr := "boom" }
    existsAfterBuild := fun _ => true }

/-- Witness for C6: a failing compiler run at a concrete environment
produces the `Build failed:` error carrying the stderr text. -/
theorem build_failure_modes_inst :
    (build sampleInfo envExecFails sampleCfg).1 =
      .error (.CompilationFailed "Build failed: boom") :=
  (build_failure_modes sampleInfo envExecFails sampleCfg "proj/main.go"
    { success := false, stderr := "boom" } rfl (by rfl) rfl (by rfl)).1 rfl

/-- C7: `check_dependencies` returns, in declaration order, exactly the
declared tools whose version-flag probe does not exit with status zero,
each rendered through the install-hint table: a hint for the two
hardcoded names `tinygo` and `go`, the bare name otherwise. -/
theorem check_dependencies_missing (info : PluginInfo) (env : BuildEnv) :
    checkDependencies info env =
      (info.dependencies.filter fun tool =>
        !env.probeSuccess tool (versionArg tool)).map installHint ∧
    installHint "tinygo" = "tinygo (install from https://tinygo.org)" ∧
    installHint "go" = "go (Go compiler)" ∧
    (∀ tool, ¬ tool = "tinygo" → ¬ tool = "go" → installHint tool = tool) := by
  refine ⟨?_, by rfl, by rfl, ?_⟩
  · unfold checkDependencies
    rw [check_deps_foldl]
    simp [isToolInstalled]
  · intro tool h1 h2
    unfold installHint
    simp [h1, h2]

/-- An environment in which only the `go` probe exits with status zero. -/
def envProbeGoOnly : BuildEnv :=
  { probeSuccess := fun tool _ => tool == "go"
    fs := fsMainGo
    mkdirSucceeds := fun _ => true
    exec := fun _ _ _ => .ok { success := true, stderr := "" }
    existsAfterBuild := fun _ => true }

/-- Witness for C7: with only `go` installed, the missing list is the
`tinygo` hint, and an undeclared name renders bare. -/
theorem check_dependencies_missing_inst :
    checkDependencies sampleInfo envProbeGoOnly =
      ["tinygo (install from https://tinygo.org)"] ∧
    installHint "cargo" = "cargo" := by
  refine ⟨?_, (check_dependencies_missing sampleInfo envProbeGoOnly).2.2.2 "cargo"
    (by decide) (by decide)⟩
  rw [(check_dependencies_missing sampleInfo envProbeGoOnly).1]
  rfl

/-- C8: plugin construction aborts (modelled as `none`) exactly when the
manifest lacks the `[package.metadata.wasm-plugin]` section; otherwise all
fields are taken from the manifest unchanged, the only defaulting being
the literal `"Unknown"` author when the authors list is empty. -/
theorem create_plugin_info_fields (cargo : CargoToml) :
    (cargo.package.metadata = none → createPluginInfo cargo = none) ∧
    (∀ meta, cargo.package.metadata = some meta →
      createPluginInfo cargo = some
        { name := meta.wasm_plugin.name
          version := cargo.package.version
          description := cargo.package.description
          author := match cargo.package.authors with
            | [] => "Unknown"
            | a :: _ => a
          extensions := meta.wasm_plugin.extensions
          entry_files := meta.wasm_plugin.entry_files
          plugin_type := .External
          source := some (.CratesIo cargo.package.name cargo.package.version)
          dependencies := meta.wasm_plugin.dependencies.tools
          capabilities :=
            { compile_wasm := meta.wasm_plugin.capabilities.compile_wasm
              compile_webapp := meta.wasm_plugin.capabilities.compile_webapp
              live_reload := meta.wasm_plugin.capabilities.live_reload
              optimization := meta.wasm_plugin.capabilities.optimization
              custom_targets := meta.wasm_plugin.capabilities.custom_targets } }) := by
  constructor
  · intro h
    unfold createPluginInfo
    rw [h]
  · intro meta h
    unfold createPluginInfo
    rw [h]
    cases hA : cargo.package.authors with
    | nil => simp [hA]
    | cons a tl => simp [hA]

/-- A manifest whose metadata block carries a plugin configuration. -/
def samplePluginCfg : WasmPluginConfig :=
  { name := "go"
    extensions := ["go"]
    entry_files := ["main.go"]
    capabilities :=
      { compile_wasm := true
        compile_webapp := false
        live_reload := false
        optimization := false
        custom_targets := ["wasm"] }
    dependencies := { tools := ["tinygo"] } }

/-- A manifest with no `[package.metadata.wasm-plugin]` section. -/
def cargoNoMeta : CargoToml :=
  { package :=
    { name := "wasmgo"
      version := "0.1.0"
      authors := []
      description := "d"
      metadata := none } }

/-- A manifest with the metadata block but an empty authors list. -/
def cargoWithMeta : CargoToml :=
  { package :=
    { name := "wasmgo"
      version := "0.1.0"
      authors := []
      description := "d"
      metadata := some { wasm_plugin := samplePluginCfg } } }

/-- Witness for C8: the missing block aborts, and an empty authors list
yields the `"Unknown"` author with every other field passed through. -/
theorem create_plugin_info_fields_inst :
    createPluginInfo cargoNoMeta = none ∧
    createPluginInfo cargoWithMeta = some
      { name := "go"
        version := "0.1.0"
        description := "d"
        author := "Unknown"
        extensions := ["go"]
        entry_files := ["main.go"]
        plugin_type := .External
        source := some (.CratesIo "wasmgo" "0.1.0")
        dependencies := ["tinygo"]
        capabilities :=
          { compile_wasm := true
            compile_webapp := false
            live_reload := false
            optimization := false
            custom_targets := ["wasm"] } } := by
  refine ⟨(create_plugin_info_fields cargoNoMeta).1 rfl, ?_⟩
  have h := (create_plugin_info_fields cargoWithMeta).2
    { wasm_plugin := samplePluginCfg } rfl
  simpa using h

/-- C9: every successful `build` returns a result whose companion-script
path is `none`, whose additional-files list is empty, and whose
wasm-bindgen flag is `false`; only the artifact path varies. -/
theorem build_result_fixed_fields (info : PluginInfo) (env : BuildEnv) (cfg : BuildConfig)
    (r : BuildResult) (h : (build info env cfg).1 = .ok r) :
    r.js_file_path = none ∧ r.additional_files = [] ∧ r.is_wasm_bindgen = false := by
  unfold build at h
  split at h
  · simp at h
  · split at h
    · simp at h
    · split at h
      · simp at h
      · simp only [] at h
        split at h
        · simp at h
        · split at h
          · simp at h
          · split at h
            · simp at h
            · simp only [Except.ok.injEq] at h
              subst h
              exact ⟨rfl, rfl, rfl⟩

/-- Witness for C9: the concrete successful build has the three fixed
fields. -/
theorem build_result_fixed_fields_inst :
    ({ wasm_file_path := "out/main.wasm"
       js_file_path := none
       additional_files := []
       is_wasm_bindgen := false } : BuildResult).js_file_path = none ∧
    ({ wasm_file_path := "out/main.wasm"
       js_file_path := none
       additional_files := []
       is_wasm_bindgen := false } : BuildResult).additional_files = [] ∧
    ({ wasm_file_path := "out/main.wasm"
       js_file_path := none
       additional_files := []
       is_wasm_bindgen := false } : BuildResult).is_wasm_bindgen = false :=
  build_result_fixed_fields sampleInfo envAllGood sampleCfg
    { wasm_file_path := "out/main.wasm"
      js_file_path := none
      additional_files := []
      is_wasm_bindgen := false } (by rfl)

end WasmGo
